import Mathlib

/-!
Verification of the kusakari-news-bot pipeline (`src/main.py` and the
spec's canonical pipeline components).

Conventions of the embedding:
* Python strings are Lean `String`s; Python `len`/slicing act on code
  points, embedded through the `data : List Char` field (`pyLen`,
  `pyTake`).
* External effects (the redirect decoder, the generation service, the
  HTTP responses of the push endpoint) are passed in explicitly as
  oracle values, so every function is total and executable.
* Fallible Python control flow (`try`/`except`, truthiness tests) is
  embedded as case analysis on an explicit outcome type.
-/

/-- Python `len(s)` on a string: number of code points. -/
def pyLen (s : String) : Nat := s.data.length

/-- Python `s[:n]` on a string: first `n` code points. -/
def pyTake (s : String) (n : Nat) : String := String.mk (s.data.take n)

/-- Python `needle in haystack` on the underlying code-point lists. -/
def listContainsSub (needle : List Char) : List Char → Bool
  | [] => needle.isEmpty
  | c :: t => needle.isPrefixOf (c :: t) || listContainsSub needle t

/-- Python `needle in haystack` for strings. -/
def strContains (haystack needle : String) : Bool :=
  listContainsSub needle.data haystack.data

/-- Outcome of one call of the external decode utility `new_decoderv1`:
it may raise, return a falsy value, or return a dict whose `status`
field is a boolean and whose `decoded_url` key may be absent. -/
inductive DecodeOutcome where
  | raises
  | falsy
  | ok (status : Bool) (decodedUrl : Option String)
deriving DecidableEq

/-- Embedding of `resolve_google_news_url` (src/main.py lines 32-40):
try `new_decoderv1`; when it returns a truthy result with a truthy
`status`, return its `decoded_url`; on an exception, a falsy result, a
falsy `status` or a missing `decoded_url` key (a `KeyError`, caught by
the same `except`), return the input URL unchanged. -/
def resolve_google_news_url (googleUrl : String) : DecodeOutcome → String
  | DecodeOutcome.raises => googleUrl
  | DecodeOutcome.falsy => googleUrl
  | DecodeOutcome.ok status decodedUrl =>
    if status then
      match decodedUrl with
      | some u => u
      | none => googleUrl
    else googleUrl

/-- `resolve_google_news_url` with the decode oracle indexed by call
number: the call at index `k` consumes outcome `oracle k` and the next
free index is `k + 1` (one decode attempt per invocation). -/
def resolveTraced (googleUrl : String) (oracle : Nat → DecodeOutcome) (k : Nat) :
    String × Nat :=
  (resolve_google_news_url googleUrl (oracle k), k + 1)

/-- One entry of the parsed RSS feed; each field may be absent
(Python `entry.get(key, "")`). -/
structure FeedEntry where
  title : Option String
  link : Option String
  summary : Option String
  published : Option String
deriving DecidableEq

/-- One article dict built by `fetch_rss_news` (src/main.py lines 86-91). -/
structure Article where
  title : String
  link : String
  summary : String
  published : String
deriving DecidableEq

/-- The article built from one feed entry (loop body of `fetch_rss_news`,
src/main.py lines 82-91): absent fields default to `""`, the link is
passed through `resolve_google_news_url`, the summary is cut to 300
code points. -/
def mkArticle (e : FeedEntry) (o : DecodeOutcome) : Article :=
  { title := e.title.getD ""
    link := resolve_google_news_url (e.link.getD "") o
    summary := pyTake (e.summary.getD "") 300
    published := e.published.getD "" }

/-- The fetch loop over the taken entries; entry number `i` consumes
decode outcome `decode i`, in feed order. -/
def fetchLoop (decode : Nat → DecodeOutcome) : List FeedEntry → Nat → List Article
  | [], _ => []
  | e :: rest, i => mkArticle e (decode i) :: fetchLoop decode rest (i + 1)

/-- Embedding of the `fetch_rss_news` branch of `execute_tool`
(src/main.py lines 76-93): `max_items` defaults to 15 when absent
(`input_data.get("max_items", 15)`), the first `max_items` feed entries
are taken in feed order (`feed.entries[:max_items]`) and each is turned
into an article, resolving its link. -/
def fetch_rss_news (entries : List FeedEntry) (maxItems : Option Nat)
    (decode : Nat → DecodeOutcome) : List Article :=
  fetchLoop decode (entries.take (maxItems.getD 15)) 0

/-- Embedding of the 5000-character guard of the `send_line_message`
branch (src/main.py lines 100-102): a message longer than 5000 code
points is cut to its first 4990 code points with `"\n..."` appended. -/
def truncateForLine (message : String) : String :=
  if pyLen message > 5000 then pyTake message 4990 ++ "\n..." else message

/-- The body actually posted to the push endpoint. -/
structure PushRequest where
  dest : String
  text : String
deriving DecidableEq

/-- Embedding of the `send_line_message` branch of `execute_tool`
(src/main.py lines 95-118): truncate the message, post it, and return
the success string exactly when the response status is 200, otherwise
an error string carrying status and body; no exception is raised on a
non-200 status. The pair also exposes the transmitted request. -/
def send_line_message (toId : String) (message : String)
    (respStatus : Nat) (respBody : String) : String × PushRequest :=
  let messageText := truncateForLine message
  let req : PushRequest := { dest := toId, text := messageText }
  if respStatus = 200 then ("LINE送信成功", req)
  else ("LINE送信エラー: status=" ++ toString respStatus ++ ", body=" ++ respBody, req)

/-- One content block of a generation-service response; `text` is
present exactly when the Python block `hasattr(b, "text")`. -/
structure ContentBlock where
  text : Option String
deriving DecidableEq

/-- One generation-service response: a stop reason and content blocks. -/
structure MockResponse where
  stopReason : String
  content : List ContentBlock
deriving DecidableEq

/-- `"".join(b.text for b in response.content if hasattr(b, "text"))`
(src/main.py line 146). -/
def joinTexts (blocks : List ContentBlock) : String :=
  String.join (blocks.filterMap ContentBlock.text)

/-- The loop of `run_agent` (src/main.py lines 133-161), with the
generation service as an oracle indexed by call number: `idx` is the
number of requests already made, `fuel` the remaining iterations.
Returns the produced text and the total number of requests made. -/
def runAgentAux (oracle : Nat → MockResponse) : Nat → Nat → String × Nat
  | idx, 0 => ("最大イテレーション到達", idx)
  | idx, fuel + 1 =>
    let r := oracle idx
    if r.stopReason = "tool_use" then runAgentAux oracle (idx + 1) fuel
    else (joinTexts r.content, idx + 1)

/-- Embedding of `run_agent` (src/main.py lines 124-161): at most
`maxIter` generation requests; the Python default for `max_iter` is 5. -/
def run_agent (oracle : Nat → MockResponse) (maxIter : Nat) : String × Nat :=
  runAgentAux oracle 0 maxIter

/-- The Python default value of `run_agent`'s `max_iter` parameter. -/
def defaultMaxIter : Nat := 5

/-- Modelled from the spec: a `RankedArticle` (§3), the item shape the
Relevance Filter's generation service is instructed to emit
(`{title, link, relevance}`, §4.3 step 1); the relevance field is
absent on the parse-failure fallback ("no relevance field
requirement", §4.3 step 2). The canonical filter implementation is not
under `src/`. -/
structure RankedArticle where
  title : String
  link : String
  relevance : Option Nat
deriving DecidableEq

/-- Modelled from the spec: the tagged outcome of parsing the
generation service's reply as the expected array structure (§4.3 step
2, §9: `ParsedOk(list<RankedArticle>) | ParseFailed`); a reply with no
bracketed array substring is a `parseFailed`. -/
inductive ParseResult where
  | parsedOk (items : List RankedArticle)
  | parseFailed
deriving DecidableEq

/-- Modelled from the spec: the title→link lookup rebuilt from the
original articles, built by iterating the list and overwriting, so
duplicate titles resolve last-write-wins (§3, §4.3 step 3). -/
def lookupLink (articles : List Article) (t : String) : Option String :=
  articles.foldl (fun acc a => if a.title = t then some a.link else acc) none

/-- Modelled from the spec: the Relevance Filter's post-processing of
one generation call (§4.3, canonical implementation not under `src/`):
on parse failure return the first 5 input articles verbatim with no
relevance field; on success overwrite each parsed item's link with the
looked-up value when the title matches, then truncate to 5. -/
def filterArticles (articles : List Article) (reply : ParseResult) :
    List RankedArticle :=
  match reply with
  | ParseResult.parseFailed =>
    (articles.take 5).map (fun a => { title := a.title, link := a.link, relevance := none })
  | ParseResult.parsedOk items =>
    (items.map (fun it =>
      { it with link := (lookupLink articles it.title).getD it.link })).take 5

/-- Modelled from the spec: the fixed "no news today" template
embedding the date label (§4.4; wording as given in the summarizer
instruction of src/main.py lines 225-229). -/
def noNewsTemplate (dateLabel : String) : String :=
  "🌿 草刈りロボット最新ニュース\n（" ++ dateLabel ++ "）\n\n" ++
    "本日の草刈りロボット関連ニュースはありませんでした。\n明日もチェックします！"

/-- Modelled from the spec: the plain-text block listing each
article's title and URL sent to the generation service (§4.4). -/
def renderPrompt (ranked : List RankedArticle) : String :=
  String.intercalate "\n\n" (ranked.map (fun r => r.title ++ "\n" ++ r.link))

/-- Modelled from the spec: one block of the Manual Formatter (§4.5,
§9): the title is split on the fixed `" - "` delimiter, the first
segment is the headline, the last segment is an optional parenthesized
source name, and the URL is emitted verbatim. -/
def formatEntry (r : RankedArticle) : String :=
  let parts := r.title.splitOn " - "
  let headline := parts.headD r.title
  let source :=
    if parts.length ≥ 2 then "\n（" ++ parts.getLastD "" ++ "）" else ""
  "■ " ++ headline ++ source ++ "\n🔗 " ++ r.link

/-- Modelled from the spec: the Manual Formatter (§4.5, canonical
implementation not under `src/`): deterministic, no external call;
header and date line, then the entry blocks separated by a rule. -/
def formatManually (ranked : List RankedArticle) (dateLabel : String) : String :=
  "🌿 草刈りロボット最新ニュース\n（" ++ dateLabel ++ "）\n\n" ++
    String.intercalate "\n\n---\n\n" (ranked.map formatEntry)

/-- Modelled from the spec: the Summarizer (§4.4, canonical
implementation not under `src/`): on an empty input return the fixed
template with no external call; otherwise make one generation call,
verify every link appears as an exact substring of the generated text,
and on any missing link discard it and use the Manual Formatter. The
second component counts the generation-service calls made. -/
def summarize (ranked : List RankedArticle) (dateLabel : String)
    (genService : String → String) : String × Nat :=
  if ranked.isEmpty then (noNewsTemplate dateLabel, 0)
  else
    let reply := genService (renderPrompt ranked)
    if ranked.all (fun r => strContains reply r.link) then (reply, 1)
    else (formatManually ranked dateLabel, 1)

/-- The external-call counts of one pipeline run. -/
structure ExternalCalls where
  feedFetches : Nat
  resolutions : Nat
  genCalls : Nat
  pushCalls : Nat
deriving DecidableEq

/-- The external world of one pipeline run, as oracles: the feed
document, the per-article decode outcomes, the two generation-service
replies and the push endpoint's response. -/
structure Oracles where
  feedEntries : List FeedEntry
  decode : Nat → DecodeOutcome
  filterReply : ParseResult
  summarizeReply : String
  pushStatus : Nat
  pushBody : String

/-- Modelled from the spec: the canonical Pipeline Orchestrator (§4.7,
not under `src/`): fetch (one feed fetch, one resolution per taken
entry) → filter (one generation call) → summarize (one generation call
unless the filtered list is empty) → send (one push call), strictly
sequential, each stage once. Returns the delivery result together with
the external-call counts of the run. -/
def runPipeline (o : Oracles) (toId : String) (dateLabel : String) :
    String × ExternalCalls :=
  let articles := fetch_rss_news o.feedEntries (some 15) o.decode
  let ranked := filterArticles articles o.filterReply
  let summarized := summarize ranked dateLabel (fun _ => o.summarizeReply)
  let sent := send_line_message toId summarized.1 o.pushStatus o.pushBody
  (sent.1,
    { feedFetches := 1
      resolutions := articles.length
      genCalls := 1 + summarized.2
      pushCalls := 1 })

/-- A 6000-code-point message, used to instantiate the truncation
property at the length of the spec's test scenario. -/
def bigMsg : String := String.mk (List.replicate 6000 'a')

lemma pyLen_append (s t : String) : pyLen (s ++ t) = pyLen s + pyLen t := by
  simp [pyLen]

lemma pyLen_pyTake (s : String) (n : Nat) : pyLen (pyTake s n) = min n (pyLen s) := by
  show (s.data.take n).length = min n s.data.length
  exact List.length_take n s.data

lemma lineError_ne_success (status : Nat) (body : String) :
    ("LINE送信エラー: status=" ++ toString status ++ ", body=" ++ body) ≠ "LINE送信成功" := by
  intro h
  have hl := congrArg pyLen h
  rw [pyLen_append, pyLen_append, pyLen_append] at hl
  have h1 : pyLen "LINE送信エラー: status=" = 18 := by decide
  have h2 : pyLen ", body=" = 7 := by decide
  have h3 : pyLen "LINE送信成功" = 8 := by decide
  omega

/-- C5: `send_line_message` reports success exactly when the push
endpoint answers HTTP 200; every other status (for example a stubbed
500) yields the non-success error string — a value, not an exception —
so the run continues. -/
theorem send_result_success_iff :
    ∀ (toId message : String) (status : Nat) (body : String),
      ((send_line_message toId message status body).1 = "LINE送信成功" ↔ status = 200)
      ∧ (send_line_message toId message 500 body).1 =
          "LINE送信エラー: status=500, body=" ++ body := by
  intro toId message status body
  constructor
  · by_cases hs : status = 200
    · simp [send_line_message, hs]
    · simp only [send_line_message, if_neg hs]
      exact ⟨fun h => absurd h (lineError_ne_success status body), fun h => absurd h hs⟩
  · have hpre : ("LINE送信エラー: status=" ++ toString (500 : Nat) ++ ", body=") =
        "LINE送信エラー: status=500, body=" := by decide
    simp [send_line_message, hpre]

/-- C6: messages longer than 5000 code points are truncated to their
first 4990 code points plus the `"\n..."` marker (total 4994 ≤ 5000);
messages of at most 5000 code points are transmitted unchanged, and
the transmitted push-request body is exactly the truncated message. -/
theorem send_length_truncation :
    ∀ message : String,
      (pyLen message > 5000 →
        truncateForLine message = pyTake message 4990 ++ "\n..."
        ∧ pyLen (truncateForLine message) = 4994
        ∧ pyLen (truncateForLine message) ≤ 5000)
      ∧ (pyLen message ≤ 5000 → truncateForLine message = message)
      ∧ (∀ (toId : String) (status : Nat) (body : String),
          (send_line_message toId message status body).2.text = truncateForLine message) := by
  intro message
  refine ⟨fun h => ?_, fun h => ?_, fun toId status body => ?_⟩
  · have ht : truncateForLine message = pyTake message 4990 ++ "\n..." := by
      unfold truncateForLine
      rw [if_pos h]
    have hmin : min 4990 (pyLen message) = 4990 := Nat.min_eq_left (by omega)
    have h4 : pyLen "\n..." = 4 := by decide
    refine ⟨ht, ?_, ?_⟩
    · rw [ht, pyLen_append, pyLen_pyTake, hmin, h4]
    · rw [ht, pyLen_append, pyLen_pyTake, hmin, h4]
      omega
  · unfold truncateForLine
    rw [if_neg (by omega)]
  · by_cases hs : status = 200 <;> simp [send_line_message, hs]

/-- Witness for C6 at a concrete 6000-character message. -/
theorem send_length_truncation_witness :
    pyLen bigMsg > 5000
    ∧ (truncateForLine bigMsg = pyTake bigMsg 4990 ++ "\n..."
       ∧ pyLen (truncateForLine bigMsg) = 4994
       ∧ pyLen (truncateForLine bigMsg) ≤ 5000) := by
  have h : pyLen bigMsg > 5000 := by
    show (List.replicate 6000 'a').length > 5000
    rw [List.length_replicate]
    omega
  exact ⟨h, (send_length_truncation bigMsg).1 h⟩

/-- C7: `resolve_google_news_url` returns the decoded URL exactly when
the decode utility returns a truthy result with a truthy status and a
present `decoded_url`; in every other outcome (exception, falsy
result, falsy status, missing key) it returns the input URL unchanged,
and each invocation consumes exactly one decode outcome. -/
theorem resolve_url_fallback :
    ∀ (u : String) (o : DecodeOutcome),
      (∀ t, o = DecodeOutcome.ok true (some t) → resolve_google_news_url u o = t)
      ∧ ((∀ t, o ≠ DecodeOutcome.ok true (some t)) → resolve_google_news_url u o = u)
      ∧ (∀ (oracle : Nat → DecodeOutcome) (k : Nat),
          (resolveTraced u oracle k).2 = k + 1) := by
  intro u o
  refine ⟨?_, ?_, fun oracle k => rfl⟩
  · rintro t rfl
    rfl
  · intro hne
    cases o with
    | raises => rfl
    | falsy => rfl
    | ok status du =>
      cases status with
      | false => rfl
      | true =>
        cases du with
        | none => rfl
        | some t => exact absurd rfl (hne t)

/-- Witness for C7 at concrete decode outcomes. -/
theorem resolve_url_fallback_witness :
    resolve_google_news_url "gURL" (DecodeOutcome.ok true (some "realURL")) = "realURL"
    ∧ resolve_google_news_url "gURL" DecodeOutcome.raises = "gURL" :=
  ⟨(resolve_url_fallback "gURL" (DecodeOutcome.ok true (some "realURL"))).1 "realURL" rfl,
   (resolve_url_fallback "gURL" DecodeOutcome.raises).2.1
     (fun _ h => DecodeOutcome.noConfusion h)⟩

lemma runAgentAux_calls_le (oracle : Nat → MockResponse) :
    ∀ (fuel idx : Nat), (runAgentAux oracle idx fuel).2 ≤ idx + fuel := by
  intro fuel
  induction fuel with
  | zero => intro idx; exact Nat.le_refl idx
  | succ f ih =>
    intro idx
    unfold runAgentAux
    by_cases h : (oracle idx).stopReason = "tool_use"
    · rw [if_pos h]
      have := ih (idx + 1)
      omega
    · rw [if_neg h]
      show idx + 1 ≤ idx + (f + 1)
      omega

lemma runAgentAux_all_tool (oracle : Nat → MockResponse) :
    ∀ (fuel idx : Nat),
      (∀ i, idx ≤ i → i < idx + fuel → (oracle i).stopReason = "tool_use") →
      runAgentAux oracle idx fuel = ("最大イテレーション到達", idx + fuel) := by
  intro fuel
  induction fuel with
  | zero => intro idx _; rfl
  | succ f ih =>
    intro idx hall
    unfold runAgentAux
    rw [if_pos (hall idx (Nat.le_refl idx) (by omega))]
    have harith : idx + (f + 1) = (idx + 1) + f := by omega
    rw [harith]
    exact ih (idx + 1) (fun i h1 h2 => hall i (by omega) (by omega))

lemma runAgentAux_first_non_tool (oracle : Nat → MockResponse) :
    ∀ (fuel idx k : Nat), idx ≤ k → k < idx + fuel →
      (∀ i, idx ≤ i → i < k → (oracle i).stopReason = "tool_use") →
      (oracle k).stopReason ≠ "tool_use" →
      runAgentAux oracle idx fuel = (joinTexts (oracle k).content, k + 1) := by
  intro fuel
  induction fuel with
  | zero => intro idx k h1 h2 _ _; omega
  | succ f ih =>
    intro idx k h1 h2 hall hk
    unfold runAgentAux
    by_cases hik : idx = k
    · rw [if_neg (hik ▸ hk)]
      rw [hik]
    · rw [if_pos (hall idx (Nat.le_refl idx) (by omega))]
      exact ih (idx + 1) k (by omega) (by omega)
        (fun i ha hb => hall i (by omega) hb) hk

/-- C10: `run_agent` makes at most `maxIter` generation requests; when
some response before the bound has a stop reason other than tool use,
it returns the joined text of the first such response; when every one
of the `maxIter` responses requests tool use, it stops anyway and
returns the fixed string. -/
theorem run_agent_iteration_bound :
    ∀ (oracle : Nat → MockResponse) (maxIter : Nat),
      (run_agent oracle maxIter).2 ≤ maxIter
      ∧ ((∀ i, i < maxIter → (oracle i).stopReason = "tool_use") →
          run_agent oracle maxIter = ("最大イテレーション到達", maxIter))
      ∧ (∀ k, k < maxIter →
          (∀ i, i < k → (oracle i).stopReason = "tool_use") →
          (oracle k).stopReason ≠ "tool_use" →
          run_agent oracle maxIter = (joinTexts (oracle k).content, k + 1)) := by
  intro oracle maxIter
  refine ⟨?_, fun hall => ?_, fun k hk hbefore hstop => ?_⟩
  · have := runAgentAux_calls_le oracle maxIter 0
    simpa [run_agent] using this
  · have := runAgentAux_all_tool oracle maxIter 0
      (fun i h1 h2 => hall i (by omega))
    simpa [run_agent] using this
  · exact runAgentAux_first_non_tool oracle maxIter 0 k (Nat.zero_le k) (by omega)
      (fun i _ hb => hbefore i hb) hstop

/-- A concrete response oracle: the first response requests tool use,
every later one ends the turn with the text `"hello"`. -/
def wOracle : Nat → MockResponse := fun i =>
  if i = 0 then { stopReason := "tool_use", content := [] }
  else { stopReason := "end_turn", content := [{ text := some "hello" }] }

/-- Witness for C10 at a concrete oracle: two requests, text of the
second response returned. -/
theorem run_agent_iteration_bound_witness :
    ((1 : Nat) < 5 ∧ (wOracle 1).stopReason ≠ "tool_use")
    ∧ run_agent wOracle 5 = ("hello", 2) := by
  refine ⟨⟨by omega, by decide⟩, ?_⟩
  have h := (run_agent_iteration_bound wOracle 5).2.2 1 (by omega)
    (by decide) (by decide)
  exact h.trans (by decide)

/-- Sixteen identical feed entries, for exercising the fetch bound. -/
def cexEntries : List FeedEntry :=
  List.replicate 16
    { title := some "t", link := some "l", summary := none, published := none }

/-- A decode oracle whose every call raises. -/
def cexDecode : Nat → DecodeOutcome := fun _ => DecodeOutcome.raises

/-- Counterexample to C9's cap: with 16 feed entries and
`max_items = 16` the fetch returns 16 articles, so its result is not
capped at 15. -/
theorem fetch_cap_counterexample :
    (fetch_rss_news cexEntries (some 16) cexDecode).length = 16
    ∧ ¬ (fetch_rss_news cexEntries (some 16) cexDecode).length ≤ 15 := by
  decide

lemma fetchLoop_length (decode : Nat → DecodeOutcome) :
    ∀ (l : List FeedEntry) (i : Nat), (fetchLoop decode l i).length = l.length := by
  intro l
  induction l with
  | nil => intro i; rfl
  | cons e rest ih => intro i; simp [fetchLoop, ih]

lemma fetchLoop_get (decode : Nat → DecodeOutcome) :
    ∀ (l : List FeedEntry) (i j : Nat) (hj : j < (fetchLoop decode l i).length),
      ∃ hl : j < l.length,
        (fetchLoop decode l i).get ⟨j, hj⟩ = mkArticle (l.get ⟨j, hl⟩) (decode (i + j)) := by
  intro l
  induction l with
  | nil =>
    intro i j hj
    exact absurd hj (by simp [fetchLoop])
  | cons e rest ih =>
    intro i j hj
    cases j with
    | zero => exact ⟨Nat.succ_pos _, rfl⟩
    | succ j =>
      have hj2 : j < (fetchLoop decode rest (i + 1)).length := by
        have := hj
        simp only [fetchLoop, List.length_cons] at this
        omega
      obtain ⟨hl, heq⟩ := ih (i + 1) j hj2
      refine ⟨by simpa using Nat.succ_lt_succ hl, ?_⟩
      show (fetchLoop decode rest (i + 1)).get ⟨j, hj2⟩ = _
      rw [heq]
      have harith : i + 1 + j = i + (j + 1) := by omega
      rw [harith]
      rfl

/-- C9 (amended): the fetch returns `min maxItems entries.length`
articles — `maxItems` defaulting to 15 when absent, with no further
cap — in feed order; the `j`-th article is built from the `j`-th feed
entry by defaulting absent fields to `""` and resolving the raw link
with the `j`-th decode outcome, so a per-article resolution failure
only degrades that article's link. -/
theorem fetch_contract :
    ∀ (entries : List FeedEntry) (maxItems : Option Nat) (decode : Nat → DecodeOutcome),
      (fetch_rss_news entries maxItems decode).length =
        min (maxItems.getD 15) entries.length
      ∧ (∀ (j : Nat) (hj : j < (fetch_rss_news entries maxItems decode).length),
          ∃ hj2 : j < entries.length,
            (fetch_rss_news entries maxItems decode).get ⟨j, hj⟩ =
              mkArticle (entries.get ⟨j, hj2⟩) (decode j))
      ∧ (∀ (e : FeedEntry) (o : DecodeOutcome),
          (mkArticle e o).title = e.title.getD ""
          ∧ (mkArticle e o).link = resolve_google_news_url (e.link.getD "") o
          ∧ (mkArticle e o).published = e.published.getD "") := by
  intro entries maxItems decode
  refine ⟨?_, fun j hj => ?_, fun e o => ⟨rfl, rfl, rfl⟩⟩
  · show (fetchLoop decode (entries.take (maxItems.getD 15)) 0).length = _
    rw [fetchLoop_length, List.length_take]
  · obtain ⟨hl, heq⟩ := fetchLoop_get decode (entries.take (maxItems.getD 15)) 0 j hj
    have hj2 : j < entries.length := by
      rw [List.length_take] at hl
      omega
    refine ⟨hj2, ?_⟩
    show (fetchLoop decode (entries.take (maxItems.getD 15)) 0).get ⟨j, hj⟩ = _
    rw [heq, Nat.zero_add]
    congr 1
    simp [List.get_eq_getElem, List.getElem_take]

/-- Two feed entries, the second with every field absent. -/
def wEntries : List FeedEntry :=
  [{ title := some "T1 - Src", link := some "g1", summary := some "S1", published := some "P1" },
   { title := none, link := none, summary := none, published := none }]

/-- A decode oracle that succeeds on the first call and raises after. -/
def wDecode : Nat → DecodeOutcome := fun k =>
  if k = 0 then DecodeOutcome.ok true (some "r1") else DecodeOutcome.raises

/-- Witness for C9 (amended) at a concrete feed. -/
theorem fetch_contract_witness :
    (fetch_rss_news wEntries none wDecode).get ⟨0, by decide⟩ =
      mkArticle (wEntries.get ⟨0, by decide⟩) (wDecode 0) := by
  obtain ⟨h2, heq⟩ := (fetch_contract wEntries none wDecode).2.1 0 (by decide)
  exact heq

lemma foldl_lookup_eq (t : String) :
    ∀ (l : List Article) (acc : Option String),
      l.foldl (fun acc a => if a.title = t then some a.link else acc) acc =
        ((l.reverse.find? (fun a => a.title == t)).map Article.link).or acc := by
  intro l
  induction l with
  | nil => intro acc; rfl
  | cons a l ih =>
    intro acc
    show l.foldl _ (if a.title = t then some a.link else acc) = _
    rw [ih]
    have hrev : (a :: l).reverse = l.reverse ++ [a] := by simp
    rw [hrev, List.find?_append]
    cases hfind : l.reverse.find? (fun a => a.title == t) with
    | some x => simp [Option.or]
    | none =>
      by_cases ht : a.title = t
      · simp [List.find?, ht, Option.or]
      · have hbeq : (a.title == t) = false := by simp [ht]
        simp [List.find?, hbeq, ht, Option.or]

/-- Counterexample to C2's unconditional clause: a parsed item whose
title matches no input article keeps the generation service's own
link, so the service-produced link can appear in the result. -/
theorem filter_service_link_counterexample :
    filterArticles
        [{ title := "A", link := "la", summary := "", published := "" }]
        (ParseResult.parsedOk [{ title := "B", link := "evil", relevance := some 5 }]) =
      [{ title := "B", link := "evil", relevance := some 5 }]
    ∧ "evil" ∉
        ([{ title := "A", link := "la", summary := "", published := "" }] :
          List Article).map Article.link := by
  decide

/-- C2 (amended): every item of the filter's result (on a parsed
reply) whose title has a match among the input articles carries the
looked-up link, and the lookup is last-write-wins: it yields the link
of the last input article with that title. Items whose titles match no
input article keep the service-supplied link. -/
theorem filter_link_reattachment :
    (∀ (articles : List Article) (items : List RankedArticle) (r : RankedArticle),
        r ∈ filterArticles articles (ParseResult.parsedOk items) →
        ∀ l, lookupLink articles r.title = some l → r.link = l)
    ∧ (∀ (articles : List Article) (t : String),
        lookupLink articles t =
          (articles.reverse.find? (fun a => a.title == t)).map Article.link) := by
  constructor
  · intro articles items r hr l hl
    have hr2 : r ∈ items.map
        (fun it => { it with link := (lookupLink articles it.title).getD it.link }) :=
      List.mem_of_mem_take hr
    obtain ⟨it, _hit, heq⟩ := List.mem_map.mp hr2
    subst heq
    simp only at hl ⊢
    rw [hl]
    rfl
  · intro articles t
    have h := foldl_lookup_eq t articles none
    rw [lookupLink, h]
    cases (articles.reverse.find? (fun a => a.title == t)).map Article.link with
    | none => rfl
    | some x => rfl

/-- Witness for C2 (amended): with two input articles sharing a title,
the looked-up link is the later one's. -/
theorem filter_link_reattachment_witness :
    (⟨"A", "la2", some 5⟩ : RankedArticle) ∈
        filterArticles
          [{ title := "A", link := "la1", summary := "", published := "" },
           { title := "A", link := "la2", summary := "", published := "" }]
          (ParseResult.parsedOk [⟨"A", "evil", some 5⟩])
    ∧ RankedArticle.link ⟨"A", "la2", some 5⟩ = "la2" := by
  refine ⟨by decide, ?_⟩
  exact filter_link_reattachment.1
    [{ title := "A", link := "la1", summary := "", published := "" },
     { title := "A", link := "la2", summary := "", published := "" }]
    [⟨"A", "evil", some 5⟩] ⟨"A", "la2", some 5⟩ (by decide) "la2" (by decide)

/-- C3: on a reply that fails to parse as the expected array the
filter returns exactly the first 5 (or fewer) input articles with
their titles and links unmodified and no relevance value, and for
every reply the result has at most 5 items; the filter is a total
function, so no exception is raised. -/
theorem filter_parse_failure :
    ∀ articles : List Article,
      ((filterArticles articles ParseResult.parseFailed).map
          (fun r => (r.title, r.link)) =
        (articles.map (fun a => (a.title, a.link))).take 5)
      ∧ (∀ r ∈ filterArticles articles ParseResult.parseFailed, r.relevance = none)
      ∧ (∀ reply, (filterArticles articles reply).length ≤ 5) := by
  intro articles
  refine ⟨?_, fun r hr => ?_, fun reply => ?_⟩
  · show ((articles.take 5).map _).map _ = _
    rw [List.map_map, ← List.map_take]
    rfl
  · have hr2 : r ∈ (articles.take 5).map
        (fun a => ({ title := a.title, link := a.link, relevance := none } : RankedArticle)) := hr
    obtain ⟨a, _ha, heq⟩ := List.mem_map.mp hr2
    subst heq
    rfl
  · cases reply with
    | parseFailed =>
      show ((articles.take 5).map _).length ≤ 5
      rw [List.length_map]
      exact List.length_take_le 5 articles
    | parsedOk items =>
      exact List.length_take_le 5 _

/-- Witness for C3 at a concrete article list. -/
theorem filter_parse_failure_witness :
    (⟨"A", "la", none⟩ : RankedArticle) ∈
        filterArticles
          [{ title := "A", link := "la", summary := "", published := "" }]
          ParseResult.parseFailed
    ∧ RankedArticle.relevance ⟨"A", "la", none⟩ = none := by
  refine ⟨by decide, ?_⟩
  exact (filter_parse_failure
      [{ title := "A", link := "la", summary := "", published := "" }]).2.1
    ⟨"A", "la", none⟩ (by decide)

lemma listContainsSub_iff (needle : List Char) :
    ∀ haystack : List Char, listContainsSub needle haystack = true ↔ needle <:+: haystack := by
  intro haystack
  induction haystack with
  | nil =>
    show needle.isEmpty = true ↔ _
    rw [List.isEmpty_iff, List.infix_nil]
  | cons c t ih =>
    show (needle.isPrefixOf (c :: t) || listContainsSub needle t) = true ↔ _
    rw [Bool.or_eq_true, ih, List.isPrefixOf_iff_prefix, List.infix_cons_iff]

lemma strContains_iff (haystack needle : String) :
    strContains haystack needle = true ↔ needle.data <:+: haystack.data :=
  listContainsSub_iff needle.data haystack.data

/-- C1: for every non-empty list of ranked articles, either the
summarizer's result is the generation service's reply and every
article's link occurs verbatim as a substring of it, or the result is
the deterministic Manual Formatter's output (the generated text is
discarded entirely). -/
theorem summarize_url_integrity :
    ∀ (ranked : List RankedArticle) (dateLabel : String) (genService : String → String),
      ranked ≠ [] →
      ((summarize ranked dateLabel genService).1 = genService (renderPrompt ranked)
        ∧ ∀ r ∈ ranked,
            r.link.data <:+: ((summarize ranked dateLabel genService).1).data)
      ∨ (summarize ranked dateLabel genService).1 = formatManually ranked dateLabel := by
  intro ranked dateLabel genService hne
  cases ranked with
  | nil => exact absurd rfl hne
  | cons r0 rest =>
    by_cases hall :
        (r0 :: rest).all
          (fun r => strContains (genService (renderPrompt (r0 :: rest))) r.link)
    · left
      constructor
      · simp [summarize, hall]
      · intro r hr
        have hc := List.all_eq_true.mp hall r hr
        have hi := (strContains_iff _ _).mp (by simpa using hc)
        simpa [summarize, hall] using hi
    · right
      simp only [summarize, List.isEmpty_cons, Bool.false_eq_true, if_false]
      rw [if_neg hall]

/-- A one-article ranked list whose link the stub generation service
omits. -/
def wRanked : List RankedArticle :=
  [{ title := "T", link := "https://example.com/a", relevance := some 5 }]

/-- A stub generation service that drops every URL. -/
def wGen : String → String := fun _ => "本文のみでURLなし"

/-- Witness for C1 at a concrete input: the stub omits the link, so
the integrity disjunction holds (via the Manual Formatter branch). -/
theorem summarize_url_integrity_witness :
    wRanked ≠ []
    ∧ (((summarize wRanked "2026年10月12日" wGen).1 = wGen (renderPrompt wRanked)
        ∧ ∀ r ∈ wRanked,
            r.link.data <:+: ((summarize wRanked "2026年10月12日" wGen).1).data)
       ∨ (summarize wRanked "2026年10月12日" wGen).1 =
           formatManually wRanked "2026年10月12日") :=
  ⟨by decide, summarize_url_integrity wRanked "2026年10月12日" wGen (by decide)⟩

/-- C4: summarizing an empty ranked list returns the fixed "no news"
template — which contains the supplied date label as a substring — and
makes zero generation-service calls. -/
theorem summarize_empty_input :
    ∀ (dateLabel : String) (genService : String → String),
      summarize [] dateLabel genService = (noNewsTemplate dateLabel, 0)
      ∧ dateLabel.data <:+: (noNewsTemplate dateLabel).data := by
  intro dateLabel genService
  refine ⟨rfl, ⟨("🌿 草刈りロボット最新ニュース\n（" : String).data,
    ("）\n\n" : String).data ++
      ("本日の草刈りロボット関連ニュースはありませんでした。\n明日もチェックします！" : String).data, ?_⟩⟩
  simp [noNewsTemplate, String.data_append, List.append_assoc]

lemma summarize_calls (ranked : List RankedArticle) (dateLabel : String)
    (genService : String → String) :
    (summarize ranked dateLabel genService).2 = if ranked.isEmpty then 0 else 1 := by
  unfold summarize
  by_cases h : ranked.isEmpty
  · simp [h]
  · by_cases h2 : ranked.all (fun r => strContains (genService (renderPrompt ranked)) r.link)
    · simp [h, h2]
    · simp [h, h2]

/-- Oracle values for a run whose feed is empty; the filtered list is
then empty and the summarizer skips its generation call. -/
def cexOracles : Oracles :=
  { feedEntries := []
    decode := fun _ => DecodeOutcome.raises
    filterReply := ParseResult.parseFailed
    summarizeReply := "s"
    pushStatus := 200
    pushBody := "" }

/-- Counterexample to C8's "exactly two generation-service calls": in
a run with an empty feed the filtered list is empty, the summarizer's
empty-input shortcut makes no call, and the run performs exactly one
generation call, not two. -/
theorem pipeline_two_gen_calls_counterexample :
    (runPipeline cexOracles "U1" "d").2.genCalls = 1
    ∧ ¬ (runPipeline cexOracles "U1" "d").2.genCalls = 2 := by
  decide

/-- C8 (amended): each pipeline run performs exactly one feed fetch,
one link resolution per fetched article, one push call, and at most
two generation calls: exactly two when the filtered list is non-empty
and exactly one when it is empty (the summarizer's empty-input
shortcut); no call is ever retried. -/
theorem pipeline_exactly_once :
    ∀ (o : Oracles) (toId dateLabel : String),
      (runPipeline o toId dateLabel).2.feedFetches = 1
      ∧ (runPipeline o toId dateLabel).2.resolutions =
          (fetch_rss_news o.feedEntries (some 15) o.decode).length
      ∧ (runPipeline o toId dateLabel).2.pushCalls = 1
      ∧ (runPipeline o toId dateLabel).2.genCalls ≤ 2
      ∧ (filterArticles (fetch_rss_news o.feedEntries (some 15) o.decode) o.filterReply ≠ [] →
          (runPipeline o toId dateLabel).2.genCalls = 2)
      ∧ (filterArticles (fetch_rss_news o.feedEntries (some 15) o.decode) o.filterReply = [] →
          (runPipeline o toId dateLabel).2.genCalls = 1) := by
  intro o toId dateLabel
  have hgen : (runPipeline o toId dateLabel).2.genCalls =
      1 + (summarize
        (filterArticles (fetch_rss_news o.feedEntries (some 15) o.decode) o.filterReply)
        dateLabel (fun _ => o.summarizeReply)).2 := rfl
  refine ⟨rfl, rfl, rfl, ?_, fun hne => ?_, fun he => ?_⟩
  · rw [hgen, summarize_calls]
    by_cases h : (filterArticles (fetch_rss_news o.feedEntries (some 15) o.decode)
        o.filterReply).isEmpty
    · simp [h]
    · simp [h]
  · rw [hgen, summarize_calls]
    have h : (filterArticles (fetch_rss_news o.feedEntries (some 15) o.decode)
        o.filterReply).isEmpty = false := by
      rw [List.isEmpty_eq_false]
      exact hne
    rw [h]
    simp
  · rw [hgen, summarize_calls, he]
    rfl

/-- Oracle values for a run with one feed entry and a parsed filter
reply, so the filtered list is non-empty. -/
def wOrcl : Oracles :=
  { feedEntries :=
      [{ title := some "t", link := some "gl", summary := none, published := none }]
    decode := fun _ => DecodeOutcome.falsy
    filterReply := ParseResult.parsedOk [⟨"t", "x", some 5⟩]
    summarizeReply := "hello"
    pushStatus := 500
    pushBody := "err" }

/-- Witness for C8 (amended) at a concrete non-empty run: exactly two
generation calls. -/
theorem pipeline_exactly_once_witness :
    filterArticles (fetch_rss_news wOrcl.feedEntries (some 15) wOrcl.decode)
        wOrcl.filterReply ≠ []
    ∧ (runPipeline wOrcl "U2" "d").2.genCalls = 2 :=
  ⟨by decide, (pipeline_exactly_once wOrcl "U2" "d").2.2.2.2.1 (by decide)⟩
